import Mathlib

/-!
Verification development for the gradient engine of the `gradient` repository
(src/src/gradient.rs, src/src/main.rs, src/src/lib.rs).

Numbers: the Rust code computes in `f32`.  We model an `f32` value as either an
exact rational number (idealizing rounding away, as the spec's real-number
arithmetic does) or a non-finite value `F.nan` (covering IEEE NaN).  Division by
zero yields `F.nan`; every arithmetic operation propagates `F.nan`; comparisons
with `F.nan` are false and clamping keeps `F.nan`, exactly as for IEEE NaN.
All concrete inputs appearing in the theorems below only ever produce a
non-finite value through `0.0 / 0.0`, which is NaN in IEEE as well, so the
collapse of NaN and the infinities into one value is exact on every evaluation
performed here.
-/

/-- Model of an f32 value: an exact rational, or a non-finite value (NaN). -/
inductive F : Type
  | nan : F
  | fin : ℚ → F
deriving DecidableEq

/-- Truncation toward zero, as Rust's float-to-integer conversions and the
`%` remainder use. -/
def ratTrunc (x : ℚ) : ℤ :=
  if x < 0 then -Int.floor (-x) else Int.floor x

/-- Addition; NaN propagates (IEEE). -/
def Fadd : F → F → F
  | F.fin a, F.fin b => F.fin (a + b)
  | _, _ => F.nan

/-- Subtraction; NaN propagates (IEEE). -/
def Fsub : F → F → F
  | F.fin a, F.fin b => F.fin (a - b)
  | _, _ => F.nan

/-- Multiplication; NaN propagates (IEEE). -/
def Fmul : F → F → F
  | F.fin a, F.fin b => F.fin (a * b)
  | _, _ => F.nan

/-- Division; a zero divisor gives a non-finite result (`0.0/0.0` is NaN in
IEEE; every division reached in the theorems below has a zero numerator
whenever its divisor is zero). NaN propagates. -/
def Fdiv : F → F → F
  | F.fin a, F.fin b => if b = 0 then F.nan else F.fin (a / b)
  | _, _ => F.nan

instance : Add F := ⟨Fadd⟩
instance : Sub F := ⟨Fsub⟩
instance : Mul F := ⟨Fmul⟩
instance : Div F := ⟨Fdiv⟩

/-- Strict greater-than on f32: false whenever either side is NaN (IEEE). -/
def Fgt : F → F → Bool
  | F.fin a, F.fin b => decide (b < a)
  | _, _ => false

/-- Rust `f32::clamp(0.0, 1.0)`: NaN stays NaN. -/
def Fclamp01 : F → F
  | F.fin a => F.fin (min 1 (max 0 a))
  | F.nan => F.nan

/-- Rust `t % 1.0`: remainder with the dividend's sign, i.e. `t - trunc t`;
NaN stays NaN. -/
def Fmod1 : F → F
  | F.fin a => F.fin (a - ratTrunc a)
  | F.nan => F.nan

/-- HSLA color with f32-modelled channels (gpui `Hsla` in gradient.rs,
`Hsla` in main.rs). -/
structure HslaF : Type where
  h : F
  s : F
  l : F
  a : F
deriving DecidableEq

/-- The `hsla` constructor (both variants): clamps every channel to [0, 1]. -/
def hsla (h s l a : F) : HslaF :=
  ⟨Fclamp01 h, Fclamp01 s, Fclamp01 l, Fclamp01 a⟩

/-- Per-channel linear blend (HslaExt::interpolate in src/src/gradient.rs lines
9-17 and Hsla::interpolate in src/src/main.rs lines 42-48; the two sources have
the identical formula). -/
def HslaF.interpolate (self other : HslaF) (t : F) : HslaF :=
  hsla (self.h * (F.fin 1 - t) + other.h * t)
    (self.s * (F.fin 1 - t) + other.s * t)
    (self.l * (F.fin 1 - t) + other.l * t)
    (self.a * (F.fin 1 - t) + other.a * t)

/-- A color stop: a color plus an optional position percentage. -/
structure ColorStop : Type where
  color : HslaF
  percentage : Option ℚ

/-- Gradient type.  main.rs additionally has `Radial` and `Conic` variants;
they are not Linear, no claim concerns them, and their parameter needs real
square roots / atan2, so they are not modelled. -/
inductive GradientType : Type
  | Linear
  | RepeatingLinear

/-- Gradient state: color stops, the type, and the resolved start and end
points in pixel space.  The source field named `end` is called `endP` here
because `end` is reserved in Lean. -/
structure Gradient : Type where
  colors : List ColorStop
  gradient_type : GradientType
  start : ℚ × ℚ
  endP : ℚ × ℚ

/-- Projection parameter of a pixel for the Linear/RepeatingLinear arm
(gradient.rs lines 238-246, main.rs lines 278-285, identical formulas).
The source computes `dist = sqrt(dx*dx + dy*dy)` and then `dot/dist/dist`;
over the reals `dot/dist/dist = dot/(dx*dx + dy*dy)`, and the divisor is zero
exactly when `dist` is zero (in which case the source's `dot` is `0.0/0.0`,
NaN, and so is its `t`), so we divide once by the squared distance. -/
def projectT (g : Gradient) (pos : ℚ × ℚ) : F :=
  let x := F.fin pos.1
  let y := F.fin pos.2
  let sx := F.fin g.start.1
  let sy := F.fin g.start.2
  let dx := F.fin g.endP.1 - sx
  let dy := F.fin g.endP.2 - sy
  let dist2 := dx * dx + dy * dy
  ((x - sx) * dx + (y - sy) * dy) / dist2

/-- Wrap/clamp of the raw parameter (gradient.rs lines 247-251, main.rs lines
301-305): modulo 1 for RepeatingLinear, clamp to [0,1] for Linear. -/
def wrapT (gt : GradientType) (t : F) : F :=
  match gt with
  | GradientType.RepeatingLinear => Fmod1 t
  | GradientType.Linear => Fclamp01 t

/-- Stop-pair scan of the library variant (gradient.rs lines 252-260):
enumerate the stops, take while `t` exceeds the scanned stop's own percentage
(absent read as 1.0) and the index is below `len - 2`, and keep the last taken
index, defaulting to 0. -/
def lookupG (cs : List ColorStop) (t : F) : ℕ :=
  ((((cs.enum).takeWhile fun ic =>
      Fgt t (F.fin (ic.2.percentage.getD 1)) && decide (ic.1 < cs.length - 2)).getLast?).map
    Prod.fst).getD 0

/-- Effective percentage of the stop at index `j` as the scans read it
(absent stop or absent percentage read as 1.0). -/
def pctAt (cs : List ColorStop) (j : ℕ) : ℚ :=
  ((cs[j]?).map fun c => c.percentage.getD 1).getD 1

/-- Stop-pair scan of the standalone variant (main.rs lines 307-310):
`while i < len - 1 && t > colors[i+1].percentage.unwrap_or(1.0) { i += 1 }`.
The loop body only reads `colors[i+1]` under the short-circuited bound
`i < len - 1`, so the index is always in bounds there; the `getD 1` default in
`pctAt` is unreachable inside the guard.  Fuel-based recursion: the loop runs
at most `len - 1` times because `i` strictly increases and is bounded, so fuel
`cs.length` is never exhausted. -/
def lookupMAux (cs : List ColorStop) (t : F) : ℕ → ℕ → ℕ
  | 0, i => i
  | fuel + 1, i =>
    if decide (i < cs.length - 1) && Fgt t (F.fin (pctAt cs (i + 1))) then
      lookupMAux cs t fuel (i + 1)
    else i

/-- Entry point of the standalone variant's scan. -/
def lookupM (cs : List ColorStop) (t : F) : ℕ :=
  lookupMAux cs t cs.length 0

/-- Bracket selection and interpolation of the library variant (gradient.rs
lines 262-272).  `colors[i]` (line 262) and `colors[i+1]` (line 271) are
panicking indexings, modelled as `none`; the end percentage (lines 263-266)
uses the total `get(i+1).map_or(1.0, ...)`. -/
def pickMixG (g : Gradient) (t : F) : Option HslaF :=
  match g.colors[lookupG g.colors t]?, g.colors[lookupG g.colors t + 1]? with
  | some ci, ci1opt =>
    let start_percentage := ci.percentage.getD 0
    let end_percentage := (ci1opt.map fun c => c.percentage.getD 1).getD 1
    let t1 := (t - F.fin start_percentage) / (F.fin end_percentage - F.fin start_percentage)
    (match ci1opt with
     | some ci1 => some (HslaF.interpolate ci.color ci1.color t1)
     | none => none)
  | none, _ => none

/-- Bracket selection and interpolation of the standalone variant (main.rs
lines 312-318); both `colors[i]` and `colors[i+1]` are panicking indexings,
modelled as `none`. -/
def pickMixM (g : Gradient) (t : F) : Option HslaF :=
  match g.colors[lookupM g.colors t]?, g.colors[lookupM g.colors t + 1]? with
  | some ci, some ci1 =>
    let start_percentage := ci.percentage.getD 0
    let end_percentage := ci1.percentage.getD 1
    let t1 := (t - F.fin start_percentage) / (F.fin end_percentage - F.fin start_percentage)
    some (HslaF.interpolate ci.color ci1.color t1)
  | _, _ => none

/-- Gradient::calculate_color of the library variant (src/src/gradient.rs
lines 234-273): projection, wrap/clamp, stop-pair lookup, interpolation.
Returns `none` exactly when the source panics (out-of-bounds stop indexing). -/
def calculate_color (g : Gradient) (pos : ℚ × ℚ) : Option HslaF :=
  pickMixG g (wrapT g.gradient_type (projectT g pos))

/-- Gradient::calculate_color of the standalone variant (src/src/main.rs
lines 274-320), Linear/RepeatingLinear arm. -/
def calculate_color_main (g : Gradient) (pos : ℚ × ℚ) : Option HslaF :=
  pickMixM g (wrapT g.gradient_type (projectT g pos))

/-- Named sides and corners (GradientSide in gradient.rs, Side in main.rs). -/
inductive GradientSide : Type
  | Top
  | Right
  | Bottom
  | Left
  | TopLeft
  | TopRight
  | BottomLeft
  | BottomRight

/-- Direction: an angle in degrees or a named side/corner (AngleOrCorner in
both variants). -/
inductive AngleOrCorner : Type
  | Angle : ℝ → AngleOrCorner
  | Side : GradientSide → AngleOrCorner

/-- Gradient::calculate_start_end (src/src/gradient.rs lines 124-232 and
src/src/main.rs lines 190-272, identical math).  The angle arm converts
degrees to radians and uses cosine and sine, so this definition lives over the
real numbers (the idealization of the source's f32 trigonometry). -/
noncomputable def calculate_start_end (aoc : AngleOrCorner) (width height : ℝ) :
    (ℝ × ℝ) × (ℝ × ℝ) :=
  match aoc with
  | AngleOrCorner.Angle angle =>
    let rad := angle * (Real.pi / 180)
    let x := Real.cos rad
    let y := Real.sin rad
    ((width * (1 - x) / 2, height * (1 - y) / 2),
     (width * (1 + x) / 2, height * (1 + y) / 2))
  | AngleOrCorner.Side side =>
    match side with
    | GradientSide.Top => ((width / 2, height), (width / 2, 0))
    | GradientSide.Right => ((0, height / 2), (width, height / 2))
    | GradientSide.Bottom => ((width / 2, 0), (width / 2, height))
    | GradientSide.Left => ((width, height / 2), (0, height / 2))
    | GradientSide.TopLeft => ((width, height), (0, 0))
    | GradientSide.TopRight => ((0, height), (width, 0))
    | GradientSide.BottomLeft => ((width, 0), (0, height))
    | GradientSide.BottomRight => ((0, 0), (width, height))

/-- Rust saturating float-to-u8 cast `as u8`: truncate toward zero, then
saturate into [0, 255]. -/
def castU8 (x : ℚ) : ℕ :=
  (max 0 (min 255 (ratTrunc x))).toNat

/-- Piecewise hue-to-channel function (src/src/main.rs lines 80-98). -/
def hue_to_rgb (p q t : ℚ) : ℚ :=
  let t1 := if t < 0 then t + 1 else t
  let t2 := if t1 > 1 then t1 - 1 else t1
  if t2 < 1 / 6 then p + (q - p) * 6 * t2
  else if t2 < 1 / 2 then q
  else if t2 < 2 / 3 then p + (q - p) * (2 / 3 - t2) * 6
  else p

/-- HSL to RGB conversion with the final 255-scale byte cast
(src/src/main.rs lines 56-78). -/
def hsl_to_rgb (h s l : ℚ) : ℕ × ℕ × ℕ :=
  if s = 0 then (castU8 (l * 255), castU8 (l * 255), castU8 (l * 255))
  else
    let q := if l < 1 / 2 then l * (1 + s) else l + s - l * s
    let p := 2 * l - q
    (castU8 (hue_to_rgb p q (h + 1 / 3) * 255),
     castU8 (hue_to_rgb p q h * 255),
     castU8 (hue_to_rgb p q (h - 1 / 3) * 255))

/-- Hsla::to_rgba (src/src/main.rs lines 50-54) at finite channel values:
convert the HSL part and append the alpha byte.  A color with a non-finite
channel is outside this conversion's claims and is mapped to `none`. -/
def to_rgba (c : HslaF) : Option (ℕ × ℕ × ℕ × ℕ) :=
  match c.h, c.s, c.l, c.a with
  | F.fin h, F.fin s, F.fin l, F.fin a =>
    let rgb := hsl_to_rgb h s l
    some (rgb.1, rgb.2.1, rgb.2.2, castU8 (a * 255))
  | _, _, _, _ => none

def colBlack : HslaF := ⟨F.fin 0, F.fin 0, F.fin 0, F.fin 1⟩
def colWhite : HslaF := ⟨F.fin 0, F.fin 0, F.fin 1, F.fin 1⟩
def colRed : HslaF := ⟨F.fin 0, F.fin 1, F.fin (1/2), F.fin 1⟩
def colBlue : HslaF := ⟨F.fin (2/3), F.fin 1, F.fin (1/2), F.fin 1⟩

/-- Linear gradient resolved to the Right on an 800 by 600 canvas, with two
uniformly spaced stops red@0.0 and blue@1.0, used for claim C7. -/
def gRight : Gradient :=
  ⟨[⟨colRed, some 0⟩, ⟨colBlue, some 1⟩], GradientType.Linear, (0, 300), (800, 300)⟩

def exStops : List ColorStop :=
  [⟨colBlack, some 0⟩, ⟨colWhite, some (7/50)⟩, ⟨colRed, some (7/25)⟩, ⟨colBlue, some 1⟩]

def cs3 : List ColorStop :=
  [⟨colBlack, some 0⟩, ⟨colWhite, some (1/2)⟩, ⟨colRed, some 1⟩]

/-- Modelled from the spec: the claimed stop-pair lookup rule — advance `i`
while `t` exceeds the effective percentage of stop `i+1` and `i` has not
reached `len - 2` (so that one upper-bracket stop remains).  Fuel-based
recursion; fuel `cs.length` is enough since `i` strictly increases and the
bound stops it before `cs.length - 2`. -/
def lookupSpecAux (cs : List ColorStop) (t : F) : ℕ → ℕ → ℕ
  | 0, i => i
  | fuel + 1, i =>
    if Fgt t (F.fin (pctAt cs (i + 1))) && decide (i < cs.length - 2) then
      lookupSpecAux cs t fuel (i + 1)
    else i

/-- Entry point of the spec-claimed lookup rule. -/
def lookupSpec (cs : List ColorStop) (t : F) : ℕ :=
  lookupSpecAux cs t cs.length 0

/-- While-loop form of the scan the library code actually performs: advance
`i` while `t` exceeds the effective percentage of stop `i+1` and `i+1` is
below `len - 2` (one index earlier than the spec's bound). -/
def lookupGWhileAux (cs : List ColorStop) (t : F) : ℕ → ℕ → ℕ
  | 0, i => i
  | fuel + 1, i =>
    if Fgt t (F.fin (pctAt cs (i + 1))) && decide (i + 1 < cs.length - 2) then
      lookupGWhileAux cs t fuel (i + 1)
    else i

/-- Entry point of the while-loop form of the library scan. -/
def lookupGWhile (cs : List ColorStop) (t : F) : ℕ :=
  lookupGWhileAux cs t cs.length 0

/-- Length of the maximal prefix of stops, starting at running index `j`, each
satisfying the library scan's take-while condition. -/
def mAux (t : F) (b : ℕ) : ℕ → List ColorStop → ℕ
  | _, [] => 0
  | j, c :: rest =>
    if Fgt t (F.fin (c.percentage.getD 1)) && decide (j < b) then
      mAux t b (j + 1) rest + 1
    else 0

/-- The take-while predicate of the library scan, with the length bound
abstracted. -/
def Pb (t : F) (b : ℕ) : ℕ × ColorStop → Bool :=
  fun ic => Fgt t (F.fin (ic.2.percentage.getD 1)) && decide (ic.1 < b)

/-- Stops are listed with non-decreasing effective percentages (the lookup
reads an absent percentage as 1.0). -/
def pctMono (cs : List ColorStop) : Prop :=
  List.Chain' (fun a b => a ≤ b) (cs.map fun c => c.percentage.getD 1)

@[simp] theorem fin_add_fin (a b : ℚ) : F.fin a + F.fin b = F.fin (a + b) := rfl
@[simp] theorem fin_sub_fin (a b : ℚ) : F.fin a - F.fin b = F.fin (a - b) := rfl
@[simp] theorem fin_mul_fin (a b : ℚ) : F.fin a * F.fin b = F.fin (a * b) := rfl
@[simp] theorem fin_div_fin (a b : ℚ) :
    F.fin a / F.fin b = if b = 0 then F.nan else F.fin (a / b) := rfl
@[simp] theorem nan_add (x : F) : F.nan + x = F.nan := by cases x <;> rfl
@[simp] theorem add_nan (x : F) : x + F.nan = F.nan := by cases x <;> rfl
@[simp] theorem nan_sub (x : F) : F.nan - x = F.nan := by cases x <;> rfl
@[simp] theorem sub_nan (x : F) : x - F.nan = F.nan := by cases x <;> rfl
@[simp] theorem nan_mul (x : F) : F.nan * x = F.nan := by cases x <;> rfl
@[simp] theorem mul_nan (x : F) : x * F.nan = F.nan := by cases x <;> rfl
@[simp] theorem nan_div (x : F) : F.nan / x = F.nan := by cases x <;> rfl
@[simp] theorem div_nan (x : F) : x / F.nan = F.nan := by cases x <;> rfl
@[simp] theorem Fgt_fin_fin (a b : ℚ) : Fgt (F.fin a) (F.fin b) = decide (b < a) := rfl
@[simp] theorem Fgt_nan_left (x : F) : Fgt F.nan x = false := by cases x <;> rfl
@[simp] theorem Fgt_nan_right (x : F) : Fgt x F.nan = false := by cases x <;> rfl
@[simp] theorem Fclamp01_fin (a : ℚ) : Fclamp01 (F.fin a) = F.fin (min 1 (max 0 a)) := rfl
@[simp] theorem Fclamp01_nan : Fclamp01 F.nan = F.nan := rfl
@[simp] theorem Fmod1_fin (a : ℚ) : Fmod1 (F.fin a) = F.fin (a - ratTrunc a) := rfl
@[simp] theorem Fmod1_nan : Fmod1 F.nan = F.nan := rfl


/-- Claim C1: with fewer than 2 color stops, calculate_color does NOT fail
with an explicit "insufficient stops" error: both variants go ahead and index
stops `i` and `i+1`, which aborts with an out-of-bounds panic (modelled as
`none`).  Evaluations of both variants at a one-stop list and at an empty
list. -/
theorem claimC1 :
    calculate_color ⟨[⟨colRed, some 0⟩], GradientType.Linear, (0, 0), (1, 0)⟩ (1/2, 0)
        = none
    ∧ calculate_color ⟨[], GradientType.Linear, (0, 0), (1, 0)⟩ (1/2, 0) = none
    ∧ calculate_color_main ⟨[⟨colRed, some 0⟩], GradientType.Linear, (0, 0), (1, 0)⟩ (1/2, 0)
        = none
    ∧ calculate_color_main ⟨[], GradientType.Linear, (0, 0), (1, 0)⟩ (1/2, 0) = none := by
  refine ⟨?_, ?_, ?_, ?_⟩ <;>
    norm_num [calculate_color, calculate_color_main, pickMixG, pickMixM, lookupG, lookupM,
      lookupMAux, pctAt, wrapT, projectT, List.enum, List.enumFrom, List.takeWhile, colRed]

/-- Claim C5: when the two bracketing stops share the same percentage the
division by the zero denominator is NOT special-cased: at `t` equal to the
shared percentage the computation divides 0.0 by 0.0 and every channel of the
returned color is NaN — not the later stop's color.  Evaluation at stops
[black@0.3, white@0.3] and projection parameter t = 0.3. -/
theorem claimC5 :
    calculate_color
        ⟨[⟨colBlack, some (3/10)⟩, ⟨colWhite, some (3/10)⟩],
          GradientType.Linear, (0, 0), (1, 0)⟩ (3/10, 0)
      = some ⟨F.nan, F.nan, F.nan, F.nan⟩
    ∧ (⟨F.nan, F.nan, F.nan, F.nan⟩ : HslaF) ≠ colWhite := by
  constructor
  · norm_num [calculate_color, pickMixG, lookupG, wrapT, projectT, List.enum,
      List.enumFrom, List.takeWhile, HslaF.interpolate, hsla, colBlack, colWhite]
  · intro hEq
    rw [colWhite] at hEq
    exact absurd (congrArg HslaF.h hEq) (by simp)

/-- Claim C6: a degenerate geometry with coincident start and end points (as a
canvas of zero width produces for the Right direction) is NOT special-cased:
the projection divides 0.0 by 0.0 and calculate_color returns a color whose
channels are all NaN, for any pixel.  The first conjunct ties the degenerate
geometry to the zero-width canvas through calculate_start_end. -/
theorem claimC6 :
    calculate_start_end (AngleOrCorner.Side GradientSide.Right) 0 600
        = ((0, 300), (0, 300))
    ∧ calculate_color
        ⟨[⟨colBlack, some 0⟩, ⟨colWhite, some 1⟩],
          GradientType.Linear, (0, 300), (0, 300)⟩ (5, 7)
      = some ⟨F.nan, F.nan, F.nan, F.nan⟩ := by
  constructor
  · norm_num [calculate_start_end]
  · norm_num [calculate_color, pickMixG, lookupG, wrapT, projectT, List.enum,
      List.enumFrom, List.takeWhile, HslaF.interpolate, hsla, colBlack, colWhite]

/-- Claim C9: the HSL-to-RGB conversion maps the fixed points exactly:
hsla(0,0,0,1) to black (0,0,0), hsla(0,0,1,1) to white (255,255,255), and
hsla(0,1,0.5,1) to pure red (255,0,0), after the 255-scale byte conversion
(alpha byte 255 in each case). -/
theorem claimC9 :
    to_rgba (hsla (F.fin 0) (F.fin 0) (F.fin 0) (F.fin 1)) = some (0, 0, 0, 255)
    ∧ to_rgba (hsla (F.fin 0) (F.fin 0) (F.fin 1) (F.fin 1)) = some (255, 255, 255, 255)
    ∧ to_rgba (hsla (F.fin 0) (F.fin 1) (F.fin (1/2)) (F.fin 1)) = some (255, 0, 0, 255) := by
  refine ⟨?_, ?_, ?_⟩ <;>
    norm_num [to_rgba, hsla, hsl_to_rgb, hue_to_rgb, castU8, ratTrunc, Int.toNat]

/-- Claim C10: interpolating a color with itself returns the color unchanged,
for every blend factor; here a color is a valid HSLA value, i.e. every channel
lies in [0,1] (the invariant the hsla constructors establish). -/
theorem claimC10 (h s l a t : ℚ)
    (hh0 : 0 ≤ h) (hh1 : h ≤ 1) (hs0 : 0 ≤ s) (hs1 : s ≤ 1)
    (hl0 : 0 ≤ l) (hl1 : l ≤ 1) (ha0 : 0 ≤ a) (ha1 : a ≤ 1) :
    HslaF.interpolate ⟨F.fin h, F.fin s, F.fin l, F.fin a⟩
        ⟨F.fin h, F.fin s, F.fin l, F.fin a⟩ (F.fin t)
      = ⟨F.fin h, F.fin s, F.fin l, F.fin a⟩ := by
  simp only [HslaF.interpolate, hsla, fin_sub_fin, fin_mul_fin, fin_add_fin, Fclamp01_fin,
    HslaF.mk.injEq, F.fin.injEq]
  refine ⟨?_, ?_, ?_, ?_⟩
  · rw [show h * (1 - t) + h * t = h by ring, max_eq_right hh0, min_eq_right hh1]
  · rw [show s * (1 - t) + s * t = s by ring, max_eq_right hs0, min_eq_right hs1]
  · rw [show l * (1 - t) + l * t = l by ring, max_eq_right hl0, min_eq_right hl1]
  · rw [show a * (1 - t) + a * t = a by ring, max_eq_right ha0, min_eq_right ha1]

/-- Witness for claim C10 at a concrete in-range color and blend factor 7. -/
theorem claimC10_witness :
    HslaF.interpolate ⟨F.fin (1/3), F.fin 1, F.fin (1/2), F.fin 1⟩
        ⟨F.fin (1/3), F.fin 1, F.fin (1/2), F.fin 1⟩ (F.fin 7)
      = ⟨F.fin (1/3), F.fin 1, F.fin (1/2), F.fin 1⟩ :=
  claimC10 (1/3) 1 (1/2) 1 7 (by norm_num) (by norm_num) (by norm_num) (by norm_num)
    (by norm_num) (by norm_num) (by norm_num) (by norm_num)

/-- Counterexample to claim C3: for a RepeatingLinear gradient with two stops
at percentages 0.0 and 0.5 (black and white, on the axis from (0,0) to (1,0),
so the projection parameter at pixel (t,0) is t), the colors at t = 0.1 and
t = 0.6 are NOT equal: 0.6 % 1.0 = 0.6 stays in the single bracket [0, 0.5]
and is extrapolated (lightness 1.2, clamped to 1) instead of repeating. -/
theorem claimC3_counterexample :
    calculate_color
        ⟨[⟨colBlack, some 0⟩, ⟨colWhite, some (1/2)⟩],
          GradientType.RepeatingLinear, (0, 0), (1, 0)⟩ (1/10, 0)
      ≠ calculate_color
        ⟨[⟨colBlack, some 0⟩, ⟨colWhite, some (1/2)⟩],
          GradientType.RepeatingLinear, (0, 0), (1, 0)⟩ (6/10, 0) := by
  have h1 : calculate_color
      ⟨[⟨colBlack, some 0⟩, ⟨colWhite, some (1/2)⟩],
        GradientType.RepeatingLinear, (0, 0), (1, 0)⟩ (1/10, 0)
      = some ⟨F.fin 0, F.fin 0, F.fin (1/5), F.fin 1⟩ := by
    norm_num [calculate_color, pickMixG, lookupG, wrapT, projectT, List.enum,
      List.enumFrom, List.takeWhile, HslaF.interpolate, hsla, ratTrunc,
      colBlack, colWhite]
  have h2 : calculate_color
      ⟨[⟨colBlack, some 0⟩, ⟨colWhite, some (1/2)⟩],
        GradientType.RepeatingLinear, (0, 0), (1, 0)⟩ (6/10, 0)
      = some ⟨F.fin 0, F.fin 0, F.fin 1, F.fin 1⟩ := by
    norm_num [calculate_color, pickMixG, lookupG, wrapT, projectT, List.enum,
      List.enumFrom, List.takeWhile, HslaF.interpolate, hsla, ratTrunc,
      colBlack, colWhite]
  rw [h1, h2]
  intro hEq
  have hl := congrArg (fun o => o.map HslaF.l) hEq
  simp at hl

/-- Claim C3 as amended: the RepeatingLinear pattern repeats with period 1.0 of
the projection parameter (the full parameter cycle), not with the stop span:
for the two-stop gradient at percentages 0.0 and 0.5 on the axis from (0,0) to
(1,0), the colors at projection parameters t and t + 1 coincide for every
t at or above 0 (in particular t = 0.1 and t = 1.1), while t = 0.1 and t = 0.6
differ (see the counterexample). -/
theorem claimC3 (c0 c1 : HslaF) (t : ℚ) (ht : 0 ≤ t) :
    calculate_color
        ⟨[⟨c0, some 0⟩, ⟨c1, some (1/2)⟩],
          GradientType.RepeatingLinear, (0, 0), (1, 0)⟩ (t, 0)
      = calculate_color
        ⟨[⟨c0, some 0⟩, ⟨c1, some (1/2)⟩],
          GradientType.RepeatingLinear, (0, 0), (1, 0)⟩ (t + 1, 0) := by
  have hp : ∀ u : ℚ, projectT
      ⟨[⟨c0, some 0⟩, ⟨c1, some (1/2)⟩],
        GradientType.RepeatingLinear, (0, 0), (1, 0)⟩ (u, 0) = F.fin u := by
    intro u
    norm_num [projectT]
  have htr : ratTrunc (t + 1) = ratTrunc t + 1 := by
    have h1 : ¬ t < 0 := not_lt.mpr ht
    have h2 : ¬ t + 1 < 0 := not_lt.mpr (by linarith)
    rw [ratTrunc, ratTrunc, if_neg h1, if_neg h2]
    exact_mod_cast Int.floor_add_one t
  have hw : Fmod1 (F.fin (t + 1)) = Fmod1 (F.fin t) := by
    rw [Fmod1_fin, Fmod1_fin, htr]
    push_cast
    ring_nf
  rw [calculate_color, calculate_color, hp t, hp (t + 1)]
  rw [show wrapT GradientType.RepeatingLinear = Fmod1 from rfl, hw]

/-- Witness for the amended claim C3 at t = 0.1 with black and white stops. -/
theorem claimC3_witness :
    calculate_color
        ⟨[⟨colBlack, some 0⟩, ⟨colWhite, some (1/2)⟩],
          GradientType.RepeatingLinear, (0, 0), (1, 0)⟩ (1/10, 0)
      = calculate_color
        ⟨[⟨colBlack, some 0⟩, ⟨colWhite, some (1/2)⟩],
          GradientType.RepeatingLinear, (0, 0), (1, 0)⟩ (1/10 + 1, 0) :=
  claimC3 colBlack colWhite (1/10) (by norm_num)

/-- Counterexample to claim C4: on a 2 by 2 canvas the direction Angle(0)
resolves to start (0,1), end (2,1), which is the named side Right's geometry,
not Top's ((1,2),(1,0)): the claimed Angle(0) to Top correspondence is false. -/
theorem claimC4_counterexample :
    calculate_start_end (AngleOrCorner.Angle 0) 2 2
      ≠ calculate_start_end (AngleOrCorner.Side GradientSide.Top) 2 2 := by
  have hA : calculate_start_end (AngleOrCorner.Angle 0) 2 2 = ((0, 1), (2, 1)) := by
    simp [calculate_start_end]
    norm_num
  have hT : calculate_start_end (AngleOrCorner.Side GradientSide.Top) 2 2
      = ((1, 2), (1, 0)) := by
    norm_num [calculate_start_end]
  rw [hA, hT]
  intro hEq
  have h0 := congrArg (fun p => p.1.1) hEq
  norm_num at h0

/-- Claim C4 as amended: the angle convention is rotated by one quarter turn
relative to the claimed table.  For every canvas size, Angle(0), Angle(90),
Angle(180), Angle(270) resolve (via calculate_start_end) to exactly the
start/end pairs of the named sides Right, Bottom, Left, Top respectively. -/
theorem claimC4 (w h : ℝ) :
    calculate_start_end (AngleOrCorner.Angle 0) w h
        = calculate_start_end (AngleOrCorner.Side GradientSide.Right) w h
    ∧ calculate_start_end (AngleOrCorner.Angle 90) w h
        = calculate_start_end (AngleOrCorner.Side GradientSide.Bottom) w h
    ∧ calculate_start_end (AngleOrCorner.Angle 180) w h
        = calculate_start_end (AngleOrCorner.Side GradientSide.Left) w h
    ∧ calculate_start_end (AngleOrCorner.Angle 270) w h
        = calculate_start_end (AngleOrCorner.Side GradientSide.Top) w h := by
  refine ⟨?_, ?_, ?_, ?_⟩
  · simp only [calculate_start_end, zero_mul, Real.cos_zero, Real.sin_zero]
    norm_num
  · have hrad : (90 : ℝ) * (Real.pi / 180) = Real.pi / 2 := by ring
    simp only [calculate_start_end, hrad, Real.cos_pi_div_two, Real.sin_pi_div_two]
    norm_num
  · have hrad : (180 : ℝ) * (Real.pi / 180) = Real.pi := by ring
    simp only [calculate_start_end, hrad, Real.cos_pi, Real.sin_pi]
    norm_num
  · have hrad : (270 : ℝ) * (Real.pi / 180) = Real.pi + Real.pi / 2 := by ring
    have hcos : Real.cos (Real.pi + Real.pi / 2) = 0 := by
      rw [Real.cos_add]; simp
    have hsin : Real.sin (Real.pi + Real.pi / 2) = -1 := by
      rw [Real.sin_add]; simp
    simp only [calculate_start_end, hrad, hcos, hsin]
    norm_num

/-- Counterexample to claim C8: the two variants disagree.  For a Linear
gradient with stops [black@0.0, white@0.5] on the axis (0,0) to (1,0) and the
pixel (0.9, 0) (clamped parameter t = 0.9 exceeds the last stop's explicit
percentage 0.5), the library variant stays at bracket [0,1] and returns an
extrapolated color, while the standalone variant advances its index to 1 and
then panics indexing stops[2] (modelled as `none`). -/
theorem claimC8_counterexample :
    calculate_color
        ⟨[⟨colBlack, some 0⟩, ⟨colWhite, some (1/2)⟩],
          GradientType.Linear, (0, 0), (1, 0)⟩ (9/10, 0)
      ≠ calculate_color_main
        ⟨[⟨colBlack, some 0⟩, ⟨colWhite, some (1/2)⟩],
          GradientType.Linear, (0, 0), (1, 0)⟩ (9/10, 0) := by
  have h1 : calculate_color
      ⟨[⟨colBlack, some 0⟩, ⟨colWhite, some (1/2)⟩],
        GradientType.Linear, (0, 0), (1, 0)⟩ (9/10, 0)
      = some ⟨F.fin 0, F.fin 0, F.fin 1, F.fin 1⟩ := by
    norm_num [calculate_color, pickMixG, lookupG, wrapT, projectT, List.enum,
      List.enumFrom, List.takeWhile, HslaF.interpolate, hsla, colBlack, colWhite]
  have h2 : calculate_color_main
      ⟨[⟨colBlack, some 0⟩, ⟨colWhite, some (1/2)⟩],
        GradientType.Linear, (0, 0), (1, 0)⟩ (9/10, 0) = none := by
    norm_num [calculate_color_main, pickMixM, lookupM, lookupMAux, pctAt, wrapT,
      projectT, colBlack, colWhite]
  rw [h1, h2]
  simp

/-- Helper: the library scan stays at index 0 whenever the (wrapped) parameter
does not exceed the effective percentage of stop 1. -/
theorem lookupG_eq_zero (cs : List ColorStop) (t : F)
    (hgt : Fgt t (F.fin (pctAt cs 1)) = false) : lookupG cs t = 0 := by
  cases cs with
  | nil => rfl
  | cons c0 cs' =>
    cases cs' with
    | nil =>
      simp [lookupG, List.enum, List.enumFrom, List.takeWhile]
    | cons c1 rest =>
      have h1 : pctAt (c0 :: c1 :: rest) 1 = c1.percentage.getD 1 := by
        simp [pctAt]
      rw [h1] at hgt
      simp only [lookupG, List.enum, List.enumFrom, List.takeWhile, hgt]
      cases hb : (Fgt t (F.fin (c0.percentage.getD 1))
          && decide (0 < (c0 :: c1 :: rest).length - 2)) <;>
        simp [hb]

/-- Helper: the standalone scan stays at index 0 whenever the (wrapped)
parameter does not exceed the effective percentage of stop 1. -/
theorem lookupM_eq_zero (cs : List ColorStop) (t : F)
    (hgt : Fgt t (F.fin (pctAt cs 1)) = false) : lookupM cs t = 0 := by
  cases cs with
  | nil => rfl
  | cons c0 cs' =>
    rw [lookupM, List.length_cons, lookupMAux, hgt, Bool.and_false]
    simp

/-- Claim C8 as amended: the two variants' calculate_color agree on a Linear
gradient whenever the clamped projection parameter does not exceed the second
stop's effective percentage (absent read as 1.0) — in particular whenever the
stops end at an explicit or implicit percentage 1.0 and there are exactly two
of them.  In general they disagree: see the counterexample, where the library
variant returns a color and the standalone variant runs past the end of the
stop list. -/
theorem claimC8 (cs : List ColorStop) (s e p : ℚ × ℚ)
    (hgt : Fgt (wrapT GradientType.Linear (projectT ⟨cs, GradientType.Linear, s, e⟩ p))
        (F.fin (pctAt cs 1)) = false) :
    calculate_color ⟨cs, GradientType.Linear, s, e⟩ p
      = calculate_color_main ⟨cs, GradientType.Linear, s, e⟩ p := by
  rw [calculate_color, calculate_color_main]
  have hG := lookupG_eq_zero cs _ hgt
  have hM := lookupM_eq_zero cs _ hgt
  cases cs with
  | nil => simp [pickMixG, pickMixM, hG, hM]
  | cons c0 cs' =>
    cases cs' with
    | nil => simp [pickMixG, pickMixM, hG, hM]
    | cons c1 rest => simp [pickMixG, pickMixM, hG, hM]

/-- Witness for the amended claim C8: for the two-stop gradient
[black@0.0, white@1.0] on the axis (0,0) to (1,0) at pixel (0.3, 0), the
hypothesis holds and both variants return the same color. -/
theorem claimC8_witness :
    calculate_color
        ⟨[⟨colBlack, some 0⟩, ⟨colWhite, some 1⟩],
          GradientType.Linear, (0, 0), (1, 0)⟩ (3/10, 0)
      = calculate_color_main
        ⟨[⟨colBlack, some 0⟩, ⟨colWhite, some 1⟩],
          GradientType.Linear, (0, 0), (1, 0)⟩ (3/10, 0) :=
  claimC8 [⟨colBlack, some 0⟩, ⟨colWhite, some 1⟩] (0, 0) (1, 0) (3/10, 0)
    (by norm_num [wrapT, projectT, pctAt])

/-- Helper: on the to-Right 800 by 600 axis the projection parameter of pixel
(x, y) is x/800, for every row y. -/
theorem gRight_proj (x y : ℚ) : projectT gRight (x, y) = F.fin (x / 800) := by
  simp only [projectT, gRight, fin_sub_fin, fin_mul_fin, fin_add_fin, fin_div_fin]
  norm_num
  ring

/-- Helper: clamping leaves a value already in [0,1] unchanged. -/
theorem Fclamp01_of_mem (q : ℚ) (h0 : 0 ≤ q) (h1 : q ≤ 1) :
    Fclamp01 (F.fin q) = F.fin q := by
  rw [Fclamp01_fin, max_eq_right h0, min_eq_right h1]

/-- Helper: for a parameter at most 1, the two-stop to-Right gradient selects
the bracket [0,1] and interpolates its stops at the parameter itself. -/
theorem gRight_pick (t : ℚ) (h1 : t ≤ 1) :
    pickMixG gRight (F.fin t)
      = some (HslaF.interpolate colRed colBlue (F.fin t)) := by
  have hl : lookupG [⟨colRed, some 0⟩, ⟨colBlue, some 1⟩] (F.fin t) = 0 := by
    refine lookupG_eq_zero _ _ ?_
    simp [pctAt]
    exact h1
  rw [pickMixG]
  rw [show gRight.colors = [⟨colRed, some 0⟩, ⟨colBlue, some 1⟩] from rfl, hl]
  norm_num

/-- Helper: blending two colors at factor 0 returns the first color when its
channels are finite and in range (here: red). -/
theorem interp_red_blue_zero :
    HslaF.interpolate colRed colBlue (F.fin 0) = colRed := by
  norm_num [HslaF.interpolate, hsla, colRed, colBlue]

/-- Helper: the color of the to-Right gradient at a pixel column x with
0 <= x/800 <= 1. -/
theorem gRight_color (x y : ℚ) (h0 : 0 ≤ x / 800) (h1 : x / 800 ≤ 1) :
    calculate_color gRight (x, y)
      = some (HslaF.interpolate colRed colBlue (F.fin (x / 800))) := by
  rw [calculate_color, show gRight.gradient_type = GradientType.Linear from rfl,
    gRight_proj, wrapT, Fclamp01_of_mem _ h0 h1, gRight_pick _ h1]

/-- Claim C7: resolving "to Right" on 800 by 600 gives the axis (0,300) to
(800,300); on it the projection parameter is 0 at x=0 (yielding the first
stop's color), exactly 1/2 at x=400 (yielding the color interpolated at
t=0.5), and 799/800 at x=799 (within 1/800 of 1, yielding the color
interpolated at t=799/800); in general the projection is 0 at the start point
and 1 at the end point whenever they differ. -/
theorem claimC7 :
    calculate_start_end (AngleOrCorner.Side GradientSide.Right) 800 600
        = ((0, 300), (800, 300))
    ∧ (∀ y : ℚ, projectT gRight (0, y) = F.fin 0
        ∧ projectT gRight (400, y) = F.fin (1/2)
        ∧ projectT gRight (799, y) = F.fin (799/800))
    ∧ (1 : ℚ) - 799/800 = 1/800
    ∧ (∀ y : ℚ, calculate_color gRight (0, y) = some colRed
        ∧ calculate_color gRight (400, y)
            = some (HslaF.interpolate colRed colBlue (F.fin (1/2)))
        ∧ calculate_color gRight (799, y)
            = some (HslaF.interpolate colRed colBlue (F.fin (799/800))))
    ∧ (∀ (cs : List ColorStop) (s e : ℚ × ℚ), s ≠ e →
        projectT ⟨cs, GradientType.Linear, s, e⟩ s = F.fin 0
        ∧ projectT ⟨cs, GradientType.Linear, s, e⟩ e = F.fin 1) := by
  refine ⟨?_, ?_, ?_, ?_, ?_⟩
  · norm_num [calculate_start_end]
  · intro y
    refine ⟨?_, ?_, ?_⟩ <;> rw [gRight_proj] <;> norm_num
  · norm_num
  · intro y
    refine ⟨?_, ?_, ?_⟩
    · rw [show calculate_color gRight (0, y) = some colRed from by
        rw [gRight_color 0 y (by norm_num) (by norm_num)]
        norm_num [interp_red_blue_zero]]
    · rw [gRight_color 400 y (by norm_num) (by norm_num)]
      norm_num
    · rw [gRight_color 799 y (by norm_num) (by norm_num)]
  · intro cs s e hne
    have hd : (e.1 - s.1) * (e.1 - s.1) + (e.2 - s.2) * (e.2 - s.2) ≠ 0 := by
      intro h
      rcases (add_eq_zero_iff_of_nonneg (mul_self_nonneg _) (mul_self_nonneg _)).mp h
        with ⟨h1, h2⟩
      exact hne (Prod.ext (sub_eq_zero.mp (mul_self_eq_zero.mp h1)).symm
        (sub_eq_zero.mp (mul_self_eq_zero.mp h2)).symm)
    constructor
    · simp only [projectT, fin_sub_fin, fin_mul_fin, fin_add_fin, fin_div_fin]
      rw [if_neg hd]
      norm_num
    · simp only [projectT, fin_sub_fin, fin_mul_fin, fin_add_fin, fin_div_fin]
      rw [if_neg hd, div_self hd]

/-- Witness for claim C7's general conjunct: at the concrete axis (0,0) to
(1,0) the projection is 1 at the end point. -/
theorem claimC7_witness :
    projectT ⟨[], GradientType.Linear, (0, 0), (1, 0)⟩ (1, 0) = F.fin 1 :=
  (claimC7.2.2.2.2 [] (0, 0) (1, 0) (by norm_num [Prod.ext_iff])).2

theorem getLast_enum_takeWhile (t : F) (b : ℕ) :
    ∀ (l : List ColorStop) (k d : ℕ),
      ((((List.enumFrom k l).takeWhile (Pb t b)).getLast?).map Prod.fst).getD d
        = if mAux t b k l = 0 then d else k + mAux t b k l - 1 := by
  intro l
  induction l with
  | nil => intro k d; simp [mAux]
  | cons c rest ih =>
    intro k d
    rw [List.enumFrom_cons, List.takeWhile_cons]
    cases hc : Pb t b (k, c) with
    | false =>
      have hm : mAux t b k (c :: rest) = 0 := by
        rw [mAux, show (Fgt t (F.fin (c.percentage.getD 1)) && decide (k < b)) = false
          from hc, if_neg (by simp)]
      simp [hm]
    | true =>
      rw [if_pos rfl]
      have hm : mAux t b k (c :: rest) = mAux t b (k + 1) rest + 1 := by
        rw [mAux, show (Fgt t (F.fin (c.percentage.getD 1)) && decide (k < b)) = true
          from hc, if_pos rfl]
      rw [hm]
      have hstep :
          ((((k, c) :: (List.enumFrom (k + 1) rest).takeWhile (Pb t b)).getLast?).map
            Prod.fst).getD d
          = ((((List.enumFrom (k + 1) rest).takeWhile (Pb t b)).getLast?).map
            Prod.fst).getD k := by
        cases htl : (List.enumFrom (k + 1) rest).takeWhile (Pb t b) with
        | nil => simp
        | cons y ys =>
          rw [List.getLast?_cons_cons, List.getLast?_eq_getLast (y :: ys) (by simp)]
          simp
      rw [hstep, ih (k + 1) k]
      cases hm0 : mAux t b (k + 1) rest with
      | zero => simp
      | succ n => simp; omega

/-- The library scan equals the maximal-prefix length minus one (0 when the
prefix is empty, by Nat truncated subtraction). -/
theorem lookupG_eq_mAux (cs : List ColorStop) (t : F) :
    lookupG cs t = mAux t (cs.length - 2) 0 cs - 1 := by
  have h0 : lookupG cs t
      = ((((List.enumFrom 0 cs).takeWhile (Pb t (cs.length - 2))).getLast?).map
        Prod.fst).getD 0 := rfl
  rw [h0, getLast_enum_takeWhile]
  cases hm : mAux t (cs.length - 2) 0 cs with
  | zero => simp
  | succ n => simp

/-- The while-loop form, run from index `i` with enough fuel, advances by the
maximal-prefix length of the stops after index `i`. -/
theorem lookupGWhileAux_eq_mAux (cs : List ColorStop) (t : F) :
    ∀ (fuel i : ℕ), cs.length ≤ fuel + (i + 1) →
      lookupGWhileAux cs t fuel i = i + mAux t (cs.length - 2) (i + 1) (cs.drop (i + 1)) := by
  intro fuel
  induction fuel with
  | zero =>
    intro i hfuel
    have hdrop : cs.drop (i + 1) = [] := List.drop_eq_nil_of_le (by omega)
    rw [lookupGWhileAux, hdrop, mAux]
    omega
  | succ fuel ih =>
    intro i hfuel
    by_cases hin : i + 1 < cs.length
    · have hdrop : cs.drop (i + 1) = cs.get ⟨i + 1, hin⟩ :: cs.drop (i + 1 + 1) :=
        List.drop_eq_getElem_cons hin
      have hpct : pctAt cs (i + 1) = (cs.get ⟨i + 1, hin⟩).percentage.getD 1 := by
        rw [pctAt, List.getElem?_eq_getElem hin]
        rfl
      rw [lookupGWhileAux, hpct, hdrop, mAux]
      cases hg : (Fgt t (F.fin ((cs.get ⟨i + 1, hin⟩).percentage.getD 1))
          && decide (i + 1 < cs.length - 2)) with
      | true =>
        rw [if_pos rfl, if_pos rfl, ih (i + 1) (by omega)]
        omega
      | false =>
        rw [if_neg (by simp), if_neg (by simp)]
        omega
    · have hdrop : cs.drop (i + 1) = [] := List.drop_eq_nil_of_le (by omega)
      have hb : decide (i + 1 < cs.length - 2) = false := by
        simp
        omega
      rw [lookupGWhileAux, hb, Bool.and_false, if_neg (by simp), hdrop, mAux]
      omega

/-- With non-decreasing percentages, dropping the leading stop and starting
the prefix count at index 1 matches the full count minus one. -/
theorem mAux_zero_one (cs : List ColorStop) (t : F) (b : ℕ) (hmono : pctMono cs) :
    mAux t b 0 cs - 1 = mAux t b 1 (cs.drop 1) := by
  cases cs with
  | nil => rfl
  | cons c0 rest =>
    have hdrop : (c0 :: rest).drop 1 = rest := rfl
    rw [hdrop, mAux]
    cases hg : (Fgt t (F.fin (c0.percentage.getD 1)) && decide (0 < b)) with
    | true =>
      rw [if_pos rfl, show (0 : ℕ) + 1 = 1 from rfl]
      omega
    | false =>
      rw [if_neg (by simp)]
      cases rest with
      | nil => rfl
      | cons c1 rest' =>
        rw [mAux]
        rcases Bool.and_eq_false_iff.mp hg with hf | hb
        · cases t with
          | nan => rw [show Fgt F.nan (F.fin (c1.percentage.getD 1)) = false from rfl]
                   simp
          | fin q =>
            have hq : q ≤ c0.percentage.getD 1 := by
              simpa using hf
            have hle : c0.percentage.getD 1 ≤ c1.percentage.getD 1 := by
              have hc := hmono
              rw [pctMono, List.map_cons, List.map_cons] at hc
              exact (List.chain'_cons.mp hc).1
            have : Fgt (F.fin q) (F.fin (c1.percentage.getD 1)) = false := by
              simp
              exact le_trans hq hle
            rw [this]
            simp
        · have : decide (1 < b) = false := by
            simp at hb ⊢
            omega
          rw [this, Bool.and_false]
          simp

/-- The library scan coincides with its while-loop description (percentage of
stop i+1, bound i+1 below len-2) on stop lists with non-decreasing effective
percentages. -/
theorem lookupG_eq_lookupGWhile (cs : List ColorStop) (t : F) (hmono : pctMono cs) :
    lookupG cs t = lookupGWhile cs t := by
  rw [lookupG_eq_mAux, lookupGWhile,
    lookupGWhileAux_eq_mAux cs t cs.length 0 (by omega)]
  simpa using mAux_zero_one cs t (cs.length - 2) hmono

/-- Counterexample to claim C2: at the stop list with explicit percentages
[0, 0.5, 1] (length 3, non-decreasing) and parameter t = 0.9 in [0,1], the
spec's claimed rule (advance while t exceeds pct(i+1), bound i below len-2)
selects bracket index 1, but the library scan selects 0 — its take-while
condition tests the scanned stop's own percentage and bounds the index at
len-3, so with three stops it never advances at all. -/
theorem claimC2_counterexample :
    (2 ≤ cs3.length ∧ pctMono cs3 ∧ ((0 : ℚ) ≤ 9/10 ∧ (9 : ℚ)/10 ≤ 1))
    ∧ lookupG cs3 (F.fin (9/10)) = 0
    ∧ lookupSpec cs3 (F.fin (9/10)) = 1 := by
  refine ⟨⟨by norm_num [cs3], by norm_num [pctMono, cs3, List.chain'_cons], by norm_num⟩,
    ?_, ?_⟩
  · norm_num [lookupG, cs3, List.enum, List.enumFrom, List.takeWhile,
      colBlack, colWhite, colRed]
  · norm_num [lookupSpec, lookupSpecAux, pctAt, cs3]

/-- Claim C2 as amended: for every stop list (length at least 2) with
non-decreasing effective percentages and every parameter t in [0,1], the
library scan advances i while t exceeds the effective percentage of stop i+1
(absent read as 1.0) with i+1 bounded below len-2 — one bracket earlier than
the spec's bound, so the lower index never exceeds len-3 (see the
counterexample for the difference); the concrete example holds as claimed:
for stops at percentages [0.0, 0.14, 0.28, 1.0] and t = 0.2 the scan selects
bracket index 1 and calculate_color interpolates its two stops at local
parameter t = (0.2 - 0.14)/(0.28 - 0.14) = 3/7. -/
theorem claimC2 :
    (∀ (cs : List ColorStop) (t : ℚ), 2 ≤ cs.length → pctMono cs →
      0 ≤ t → t ≤ 1 → lookupG cs (F.fin t) = lookupGWhile cs (F.fin t))
    ∧ lookupG exStops (F.fin (1/5)) = 1
    ∧ calculate_color ⟨exStops, GradientType.Linear, (0, 0), (1, 0)⟩ (1/5, 0)
        = some (HslaF.interpolate colWhite colRed (F.fin (3/7))) := by
  refine ⟨fun cs t _ hmono _ _ => lookupG_eq_lookupGWhile cs (F.fin t) hmono, ?_, ?_⟩
  · norm_num [lookupG, exStops, List.enum, List.enumFrom, List.takeWhile,
      colBlack, colWhite, colRed, colBlue]
  · have hl : lookupG exStops (F.fin (1/5)) = 1 := by
      norm_num [lookupG, exStops, List.enum, List.enumFrom, List.takeWhile,
        colBlack, colWhite, colRed, colBlue]
    have hp : projectT ⟨exStops, GradientType.Linear, (0, 0), (1, 0)⟩ (1/5, 0)
        = F.fin (1/5) := by
      norm_num [projectT]
    rw [calculate_color, show (⟨exStops, GradientType.Linear, (0, 0),
      (1, 0)⟩ : Gradient).gradient_type = GradientType.Linear from rfl, hp, wrapT,
      Fclamp01_of_mem _ (by norm_num) (by norm_num), pickMixG]
    rw [show (⟨exStops, GradientType.Linear, (0, 0), (1, 0)⟩ : Gradient).colors
      = exStops from rfl, hl]
    norm_num [exStops]

/-- Witness for the amended claim C2's universally quantified conjunct, at the
concrete monotone stop list [0, 0.5, 1] and t = 0.9. -/
theorem claimC2_witness :
    lookupG cs3 (F.fin (9/10)) = lookupGWhile cs3 (F.fin (9/10)) :=
  claimC2.1 cs3 (9/10) (by norm_num [cs3])
    (by norm_num [pctMono, cs3, List.chain'_cons]) (by norm_num) (by norm_num)
